import Mathlib

/-! Verification of go-ipc: shallow embedding and theorems.

Embedding of the in-place three-state mutex (`sync/inplace_mutex.go`), the
`LockTimeout` wrappers and `DestroyFutexMutex` (`sync/mutex_futex_linux.go`,
`sync/timed_semaphore_unix.go`), the spin mutex, `createMemoryObject` and
`newSpinMutex` (`spin_mutex.go`) and the region writer and offset fixup
(`shared_memory.go`).  Collaborators whose code is outside the available
sources (the platform calls, the mode constants) are parameters.

The state word is a `uint32`; it is embedded as a `Nat`.  Every value the code
writes is one of the constants 0, 1, 2, so no wrap-around can occur.
Shared-memory accesses are the atomic steps of a small-step machine: each
transition of `stepProc` performs at most one access to the word.
-/

namespace GoIpc

/-! ## Errors and call outcomes -/

/-- Error kinds that cross the API surface (spec section 6). -/
inductive Err where
  | AlreadyExists
  | NotFound
  | PermissionDenied
  | InvalidArgument
  | NameTooLong
  | Timeout
  | Interrupted
  | WouldBlock
  | Unsupported
  /-- an error built by `fmt.Errorf` -/
  | Errorf (msg : String)
  deriving DecidableEq, Repr

/-- Value carried by a Go panic: a string, an error, or a run-time error. -/
inductive PanicVal where
  | str (s : String)
  | err (e : Err)
  /-- a run-time panic raised by the Go runtime (a `runtime.Error`) -/
  | runtime (msg : String)
  deriving DecidableEq, Repr

/-- Outcome of a call that either returns a value or panics. -/
inductive Outcome (α : Type) where
  | ret (a : α)
  | panic (v : PanicVal)
  deriving DecidableEq, Repr

/-! ## Atomic primitives (`sync/atomic`) on a word -/

/-- The primitive atomic.CompareAndSwapUint32: new word and success flag. -/
def CompareAndSwapUint32 (w old new : Nat) : Nat × Bool :=
  if w = old then (new, true) else (w, false)

/-- The primitive atomic.SwapUint32: new word and the previous value. -/
def SwapUint32 (w new : Nat) : Nat × Nat := (new, w)

/-! ## `sync/inplace_mutex.go` -/

def cInplaceSpinCount : Nat := 100
def cInplaceMutexUnlocked : Nat := 0
def cInplaceMutexLockedNoWaiters : Nat := 1
def cInplaceMutexLockedHaveWaiters : Nat := 2

namespace inplaceMutex

/-- Source: `TryLock`, a single CAS from Unlocked to LockedNoWaiters. -/
def TryLock (w : Nat) : Nat × Bool :=
  CompareAndSwapUint32 w cInplaceMutexUnlocked cInplaceMutexLockedNoWaiters

/-- Source: `LockTimeout`, given the result `err` of `im.lockTimeout(timeout)`.
`isTimeoutErr` stands for `common.IsTimeoutErr`, which is declared outside the
available sources. -/
def LockTimeout (isTimeoutErr : Err → Bool) (err : Option Err) : Outcome Bool :=
  match err with
  | none => .ret true
  | some e => if isTimeoutErr e then .ret false else .panic (.err e)

/-- Source: `Lock`, given the result `err` of `im.lockTimeout(-1)`. -/
def Lock (err : Option Err) : Outcome Unit :=
  match err with
  | none => .ret ()
  | some e => .panic (.err e)

end inplaceMutex

/-- Public entry point through which `lockTimeout` was entered. -/
inductive Api where
  | Lock
  | LockTimeout (timeout : Int)
  deriving DecidableEq, Repr

/-- The timeout handed to `lockTimeout`: `Lock` passes `-1`. -/
def Api.timeout : Api → Int
  | .Lock => -1
  | .LockTimeout t => t

/-- Operation a process may start when it is outside any call. -/
inductive Op where
  | Init
  | TryLock
  | Lock
  | LockTimeout (timeout : Int)
  | Unlock
  deriving DecidableEq, Repr

/-- Value returned by the last completed call of a process. -/
inductive Ret where
  | unit
  | bool (b : Bool)
  deriving DecidableEq, Repr

/-- Program counter of a process: the next atomic step it will perform. -/
inductive Pc where
  /-- outside any call -/
  | idle
  /-- In `Init`: about to store Unlocked (line 52) -/
  | init
  /-- In `TryLock`: about to CAS (line 64) -/
  | tryLock
  /-- In `lockTimeout`: head of the spin loop with counter `i` (lines 103-109) -/
  | lSpin (api : Api) (i : Nat)
  /-- In `lockTimeout`: about to swap in LockedHaveWaiters (line 111) -/
  | lSwapFirst (api : Api)
  /-- In `lockTimeout`: about to call `ww.wait(timeout)` (line 114) -/
  | lWait (api : Api)
  /-- In `lockTimeout`: about to swap in LockedHaveWaiters (line 117) -/
  | lSwap (api : Api)
  /-- In `Unlock`: about to load the word (line 81) -/
  | uLoad
  /-- In `Unlock`: about to store Unlocked (line 82) -/
  | uStore
  /-- In `Unlock`: about to swap in Unlocked (line 87) -/
  | uSwap
  /-- In `Unlock`: head of the spin loop with counter `i` (lines 91-92, 99) -/
  | uSpin (i : Nat)
  /-- In `Unlock`: about to CAS LockedNoWaiters to LockedHaveWaiters (line 93) -/
  | uCas (i : Nat)
  /-- the process panicked -/
  | panicked (v : PanicVal)
  deriving DecidableEq, Repr

/-- Local state of one process. `holds` is set by the atomic step of a
successful acquire and cleared by the step of `Unlock` that writes Unlocked. -/
structure Proc where
  pc : Pc
  holds : Bool
  last : Option Ret
  deriving DecidableEq, Repr

/-- Shared part of the state: the word and the number of `wake()` calls. -/
structure Mem where
  word : Nat
  wakes : Nat
  deriving DecidableEq, Repr

/-- What the environment supplies to one step: the operation to start (used
only when the process is idle) and the result of `ww.wait` (used only at the
wait step). -/
structure Input where
  op : Op
  waitRes : Option Err
  deriving DecidableEq, Repr

/-- Modelled from the spec: `common.IsTimeoutErr`, declared outside the
available sources; section 5 says timeouts are reported via the dedicated
sentinel `Timeout`. -/
def IsTimeoutErr (e : Err) : Bool := decide (e = Err.Timeout)

/-- Leaving `lockTimeout` with result `err` through the wrapper `api`. A nil
result is a successful acquire. -/
def finishLock (api : Api) (err : Option Err) (p : Proc) : Proc :=
  let h : Bool := if err = none then true else p.holds
  match api with
  | .Lock =>
    match inplaceMutex.Lock err with
    | .ret _ => { pc := .idle, holds := h, last := some .unit }
    | .panic v => { pc := .panicked v, holds := h, last := p.last }
  | .LockTimeout _ =>
    match inplaceMutex.LockTimeout IsTimeoutErr err with
    | .ret b => { pc := .idle, holds := h, last := some (.bool b) }
    | .panic v => { pc := .panicked v, holds := h, last := p.last }

/-- One atomic step of a process on the shared word. -/
def stepProc (m : Mem) (p : Proc) (inp : Input) : Mem × Proc :=
  match p.pc with
  | .idle =>
    match inp.op with
    | .Init => (m, { p with pc := .init })
    | .TryLock => (m, { p with pc := .tryLock })
    | .Lock => (m, { p with pc := .lSpin .Lock 0 })
    | .LockTimeout t => (m, { p with pc := .lSpin (.LockTimeout t) 0 })
    | .Unlock => (m, { p with pc := .uLoad })
  | .init =>
    ({ m with word := cInplaceMutexUnlocked }, { p with pc := .idle, last := some .unit })
  | .tryLock =>
    let r := inplaceMutex.TryLock m.word
    ({ m with word := r.1 },
      { pc := .idle, holds := r.2 || p.holds, last := some (.bool r.2) })
  | .lSpin api i =>
    if i < cInplaceSpinCount then
      let r := CompareAndSwapUint32 m.word cInplaceMutexUnlocked cInplaceMutexLockedNoWaiters
      if r.2 then ({ m with word := r.1 }, finishLock api none p)
      else ({ m with word := r.1 }, { p with pc := .lSpin api (i + 1) })
    else
      let old := m.word
      if old ≠ cInplaceMutexLockedHaveWaiters then (m, { p with pc := .lSwapFirst api })
      else (m, { p with pc := .lWait api })
  | .lSwapFirst api =>
    let r := SwapUint32 m.word cInplaceMutexLockedHaveWaiters
    if r.2 ≠ cInplaceMutexUnlocked then ({ m with word := r.1 }, { p with pc := .lWait api })
    else ({ m with word := r.1 }, finishLock api none p)
  | .lWait api =>
    match inp.waitRes with
    | some e => (m, finishLock api (some e) p)
    | none => (m, { p with pc := .lSwap api })
  | .lSwap api =>
    let r := SwapUint32 m.word cInplaceMutexLockedHaveWaiters
    if r.2 ≠ cInplaceMutexUnlocked then ({ m with word := r.1 }, { p with pc := .lWait api })
    else ({ m with word := r.1 }, finishLock api none p)
  | .uLoad =>
    let old := m.word
    if old = cInplaceMutexLockedHaveWaiters then (m, { p with pc := .uStore })
    else if old = cInplaceMutexUnlocked then
      (m, { p with pc := .panicked (.str "unlock of unlocked mutex") })
    else (m, { p with pc := .uSwap })
  | .uStore =>
    ({ m with word := cInplaceMutexUnlocked }, { p with pc := .uSpin 0, holds := false })
  | .uSwap =>
    let r := SwapUint32 m.word cInplaceMutexUnlocked
    if r.2 = cInplaceMutexLockedNoWaiters then
      ({ m with word := r.1 }, { pc := .idle, holds := false, last := some .unit })
    else ({ m with word := r.1 }, { p with pc := .uSpin 0, holds := false })
  | .uSpin i =>
    if i < cInplaceSpinCount then
      if m.word ≠ cInplaceMutexUnlocked then (m, { p with pc := .uCas i })
      else (m, { p with pc := .uSpin (i + 1) })
    else
      ({ m with wakes := m.wakes + 1 }, { p with pc := .idle, last := some .unit })
  | .uCas i =>
    let r := CompareAndSwapUint32 m.word cInplaceMutexLockedNoWaiters
      cInplaceMutexLockedHaveWaiters
    if r.2 then ({ m with word := r.1 }, { p with pc := .idle, last := some .unit })
    else ({ m with word := r.1 }, { p with pc := .uSpin (i + 1) })
  | .panicked _ => (m, p)

/-! ## Interleaved executions of many processes -/

/-- Whole system: the shared memory and the local state of every process. -/
structure Sys where
  mem : Mem
  procs : Nat → Proc

/-- One scheduling decision: which process steps, and its input. -/
structure Event where
  pid : Nat
  inp : Input
  deriving DecidableEq, Repr

/-- The scheduled process performs its next atomic step. -/
def step (s : Sys) (e : Event) : Sys :=
  let r := stepProc s.mem (s.procs e.pid) e.inp
  { mem := r.1, procs := Function.update s.procs e.pid r.2 }

/-- An interleaving is a list of events, executed left to right. -/
def run (s : Sys) (es : List Event) : Sys := es.foldl step s

/-- Initial system: word Unlocked, every process outside any call. -/
def Sys.initial : Sys :=
  { mem := { word := cInplaceMutexUnlocked, wakes := 0 },
    procs := fun _ => { pc := .idle, holds := false, last := none } }

/-- Usage discipline of a lock: a process starts `Unlock` only while it holds
the mutex, and nobody re-initialises the word. -/
def disciplined (s : Sys) (e : Event) : Bool :=
  match (s.procs e.pid).pc, e.inp.op with
  | .idle, .Unlock => (s.procs e.pid).holds
  | .idle, .Init => false
  | _, _ => true

/-- Every event of the interleaving respects the discipline. -/
def disciplinedRun : Sys → List Event → Bool
  | _, [] => true
  | s, e :: es => disciplined s e && disciplinedRun (step s e) es

/-- Program points of `Unlock` before its write of Unlocked. -/
def Pc.unlockPre : Pc → Bool
  | .uLoad => true
  | .uStore => true
  | .uSwap => true
  | _ => false

/-- Runs the current call of a single process, with no other process
stepping, until the call has returned or panicked (or the fuel is spent). -/
def runCall : Nat → Mem → Proc → Input → Mem × Proc
  | 0, m, p, _ => (m, p)
  | fuel + 1, m, p, inp =>
    match p.pc with
    | .idle => (m, p)
    | .panicked _ => (m, p)
    | _ => let r := stepProc m p inp; runCall fuel r.1 r.2 inp

/-! ## The mutual-exclusion invariant -/

/-- Invariant of disciplined executions: a held mutex has a non-zero word, at
most one process holds, a process before the write of `Unlock` holds, and no
process is inside `Init`. -/
structure Inv (s : Sys) : Prop where
  locked : ∀ i, (s.procs i).holds = true → s.mem.word ≠ 0
  unique : ∀ i j, (s.procs i).holds = true → (s.procs j).holds = true → i = j
  pre : ∀ i, (s.procs i).pc.unlockPre = true → (s.procs i).holds = true
  noInit : ∀ i, (s.procs i).pc ≠ .init

/-! ## `sync/mutex_futex_linux.go`, `sync/timed_semaphore_unix.go` -/

namespace FutexMutex

/-- Source: `LockTimeout`, given the result `err` of `f.lockTimeout(timeout)`. -/
def LockTimeout (isTimeoutErr : Err → Bool) (err : Option Err) : Outcome Bool :=
  match err with
  | none => .ret true
  | some e => if isTimeoutErr e then .ret false else .panic (.err e)

end FutexMutex

namespace SemaMutex

/-- Source: `LockTimeout`, given the result `err` of `m.s.AddTimeout(timeout, -1)`. -/
def LockTimeout (isTimeoutErr : Err → Bool) (err : Option Err) : Outcome Bool :=
  match err with
  | none => .ret true
  | some e => if isTimeoutErr e then .ret false else .panic (.err e)

end SemaMutex

/-! ## `spin_mutex.go`: the spin mutex -/

/-- The primitive atomic.StoreUint32: the new word. -/
def StoreUint32 (_w new : Nat) : Nat := new

namespace spinMutexImpl

/-- Source: `TryLock`, a CAS of `value` from 0 to 1. -/
def TryLock (value : Nat) : Nat × Bool := CompareAndSwapUint32 value 0 1

/-- Source: `Unlock`, an atomic store of 0 and a normal return. -/
def Unlock (value : Nat) : Nat × Outcome Unit := (StoreUint32 value 0, .ret ())

/-- Source: `Lock` run alone: `TryLock` is retried, at most `fuel` times, until
it succeeds; `none` when the fuel is spent. -/
def Lock : Nat → Nat → Option Nat
  | 0, _ => none
  | fuel + 1, value =>
    let r := TryLock value
    if r.2 then some r.1 else Lock fuel r.1

end spinMutexImpl

/-! ## `spin_mutex.go`: `createMemoryObject` -/

/-- Handle of an opened memory object. -/
structure MemoryObject where
  handle : Nat
  deriving DecidableEq, Repr

/-- Result of an error-returning call: the Go pair `(value, err)`. -/
inductive Res (α : Type) where
  | ok (a : α)
  | fail (e : Err)
  deriving DecidableEq, Repr

/-- The open-mode bits `O_OPEN_ONLY`, `O_CREATE_ONLY`, `O_OPEN_OR_CREATE`;
their declarations are outside the available sources, so they are parameters. -/
structure OpenFlags where
  O_OPEN_ONLY : Nat
  O_CREATE_ONLY : Nat
  O_OPEN_OR_CREATE : Nat
  deriving DecidableEq, Repr

/-- The platform behind `NewMemoryObject`: the result of the `k`-th call
(counted from 0) made with the given name, mode and permissions. The answers
may differ from call to call, since other processes create and unlink names. -/
abbrev Platform := Nat → String → Nat → Nat → Res MemoryObject

/-- Go `os.IsExist` on a possibly nil error. -/
def IsExist : Option Err → Bool
  | some .AlreadyExists => true
  | _ => false

/-- Go `os.IsNotExist` on a possibly nil error. -/
def IsNotExist : Option Err → Bool
  | some .NotFound => true
  | _ => false

/-- Go `a & ^b` on non-negative integers. -/
def andNot (a b : Nat) : Nat := a ^^^ (a &&& b)

/-- Named results of `createMemoryObject`, with the log of the modes of the
`NewMemoryObject` calls made so far, oldest first. -/
structure CreateResult where
  obj : Option MemoryObject
  created : Bool
  err : Option Err
  calls : List Nat
  deriving DecidableEq, Repr

/-- Source: `obj, err = NewMemoryObject(name, mode, perm)`. -/
def CreateResult.assign (st : CreateResult) (plat : Platform) (name : String)
    (mode perm : Nat) : CreateResult :=
  match plat st.calls.length name mode perm with
  | .ok o => { st with obj := some o, err := none, calls := st.calls ++ [mode] }
  | .fail e => { st with obj := none, err := some e, calls := st.calls ++ [mode] }

/-- Source: the `for attempt := 0; attempt < attempts; attempt++` loop of
`createMemoryObject`, with `n` iterations left. -/
def createMemoryObjectLoop (fl : OpenFlags) (plat : Platform) (name : String)
    (mode perm : Nat) : Nat → CreateResult → CreateResult
  | 0, st => st
  | n + 1, st =>
    let st1 := st.assign plat name (mode ||| fl.O_CREATE_ONLY) perm
    if !IsExist st1.err then { st1 with created := true }
    else
      let st2 := st1.assign plat name (mode ||| fl.O_OPEN_ONLY) perm
      if !IsNotExist st2.err then st2
      else createMemoryObjectLoop fl plat name mode perm n st2

/-- Source: `createMemoryObject`. -/
def createMemoryObject (fl : OpenFlags) (plat : Platform) (name : String)
    (mode perm : Nat) : CreateResult :=
  let st0 : CreateResult := { obj := none, created := false, err := none, calls := [] }
  if mode &&& (fl.O_OPEN_ONLY ||| fl.O_CREATE_ONLY) ≠ 0 then
    let st1 := st0.assign plat name mode perm
    if st1.err = none ∧ mode &&& fl.O_CREATE_ONLY ≠ 0 then { st1 with created := true }
    else st1
  else if mode &&& fl.O_OPEN_OR_CREATE ≠ 0 then
    createMemoryObjectLoop fl plat name (andNot mode fl.O_OPEN_OR_CREATE) perm 16 st0
  else
    { st0 with err := some (.Errorf "invalid open mode") }

/-! ## `shared_memory.go` -/

/-- Error of the `io` package returned by `WriteAt`. -/
inductive IoErr where
  | EOF
  deriving DecidableEq, Repr

/-- Go builtin `copy(dst, src)`: overwrites the first `min(len dst, len src)`
elements of `dst`. -/
def goCopy (dst src : List Nat) : List Nat :=
  src.take (min dst.length src.length) ++ dst.drop (min dst.length src.length)

/-- Result of `WriteAt`: the region afterwards, the count `n` and `err`. -/
structure WriteResult where
  data : List Nat
  n : Int
  err : Option IoErr
  deriving DecidableEq, Repr

/-- Two's-complement wrap-around of a 64-bit signed result. -/
def wrap64 (x : Int) : Int := (x + 2 ^ 63) % 2 ^ 64 - 2 ^ 63

/-- Source: `MemoryRegionWriter.WriteAt`. `data` is the region, `p` the
buffer, `int` is 64 bits wide, so `len(data) - int(off)` wraps around. The
slice `data[off:]` with a negative `off` is a run-time panic. -/
def WriteAt (data p : List Nat) (off : Int) : Outcome WriteResult :=
  let n0 : Int := wrap64 ((data.length : Int) - off)
  if n0 > 0 then
    let n : Int := if n0 > (p.length : Int) then (p.length : Int) else n0
    if off < 0 then .panic (.runtime "slice bounds out of range")
    else
      let data1 := data.take off.toNat ++ goCopy (data.drop off.toNat) (p.take n.toNat)
      .ret { data := data1, n := n, err := if n < (p.length : Int) then some .EOF else none }
  else
    .ret { data := data, n := n0, err := if n0 < (p.length : Int) then some .EOF else none }

/-- Source: `calcMmapOffsetFixup`; `pageSize` is `int64(os.Getpagesize())`.
Go's `/` truncates toward zero. -/
def calcMmapOffsetFixup (pageSize offset : Int) : Int :=
  wrap64 (offset - wrap64 (Int.tdiv offset pageSize * pageSize))

/-! ## Contracts and concrete inputs used in the statements -/

/-- The three-way result mapping of a `LockTimeout` wrapper `f`: true exactly
on a nil error, false exactly on a timeout error, and a panic carrying the
error exactly on every other error. -/
def LockTimeoutContract (f : (Err → Bool) → Option Err → Outcome Bool) : Prop :=
  ∀ (isTimeoutErr : Err → Bool) (err : Option Err),
    (f isTimeoutErr err = .ret true ↔ err = none) ∧
    (f isTimeoutErr err = .ret false ↔ ∃ e, err = some e ∧ isTimeoutErr e = true) ∧
    (∀ v, f isTimeoutErr err = .panic v ↔
      ∃ e, err = some e ∧ isTimeoutErr e = false ∧ v = .err e)

/-- A hand-over between two processes: process 0 locks, process 1 starts
`Lock` and fails its first CAS, process 0 unlocks, process 1 acquires. -/
def handOverRun : List Event :=
  [⟨0, ⟨.Lock, none⟩⟩, ⟨0, ⟨.Lock, none⟩⟩,
   ⟨1, ⟨.Lock, none⟩⟩, ⟨1, ⟨.Lock, none⟩⟩,
   ⟨0, ⟨.Unlock, none⟩⟩, ⟨0, ⟨.Unlock, none⟩⟩, ⟨0, ⟨.Unlock, none⟩⟩,
   ⟨1, ⟨.Lock, none⟩⟩]

/-- An undisciplined interleaving: process 0 takes the mutex; a contended
`LockTimeout` of process 3 spins 100 times, swaps in LockedHaveWaiters, waits
and times out; process 1 re-initialises the word with `Init`; process 2 calls
`Unlock` on the mutex that is then not locked and panics. -/
def wildRun : List Event :=
  [⟨0, ⟨.TryLock, none⟩⟩, ⟨0, ⟨.TryLock, none⟩⟩] ++
  List.replicate 104 ⟨3, ⟨.LockTimeout 5, some .Timeout⟩⟩ ++
  [⟨1, ⟨.Init, none⟩⟩, ⟨1, ⟨.Init, none⟩⟩,
   ⟨2, ⟨.Unlock, none⟩⟩, ⟨2, ⟨.Unlock, none⟩⟩]

/-- A sample assignment of the open-mode bits, three distinct bits. -/
def sampleFlags : OpenFlags := { O_OPEN_ONLY := 4, O_CREATE_ONLY := 2, O_OPEN_OR_CREATE := 1 }

/-- A platform on which every `NewMemoryObject` call is refused. -/
def denyingPlatform : Platform := fun _ _ _ _ => .fail .PermissionDenied

/-! ## `sync/mutex_futex_linux.go`: destroying a mutex by name -/

def cFutexMutexUnlocked : Nat := 0

/-- Handle of a futex object; `NewFutex` and its `Destroy` are outside the
available sources and are parameters below. -/
structure Futex where
  id : Nat
  deriving DecidableEq, Repr

/-- Source: `type FutexMutex struct { futex *Futex }`. -/
structure FutexMutex where
  futex : Futex
  deriving DecidableEq, Repr

/-- Source: `NewFutexMutex`; `newFutex` stands for `NewFutex(name, mode, perm,
initial, flags)`. -/
def NewFutexMutex (newFutex : String → Nat → Nat → Nat → Int → Res Futex)
    (name : String) (mode perm : Nat) : Res FutexMutex :=
  match newFutex name mode perm cFutexMutexUnlocked 0 with
  | .fail e => .fail e
  | .ok f => .ok { futex := f }

/-- Source: `(f *FutexMutex) Destroy`, which returns `f.futex.Destroy()`. -/
def FutexMutex.Destroy (futexDestroy : Futex → Option Err) (m : FutexMutex) : Option Err :=
  futexDestroy m.futex

/-- Source: `DestroyFutexMutex`. The permissions `0666` are 438. -/
def DestroyFutexMutex (fl : OpenFlags)
    (newFutex : String → Nat → Nat → Nat → Int → Res Futex)
    (futexDestroy : Futex → Option Err) (name : String) : Option Err :=
  match NewFutexMutex newFutex name fl.O_OPEN_ONLY 438 with
  | .fail e => if IsNotExist (some e) then none else some e
  | .ok m => m.Destroy futexDestroy

/-- A platform on which no futex object exists. -/
def absentFutex : String → Nat → Nat → Nat → Int → Res Futex :=
  fun _ _ _ _ _ => .fail .NotFound

/-! ## One call of `Unlock` or `lockTimeout` against arbitrary interference -/

/-- Runs the current call of one process while other processes change the
word arbitrarily: before each step of the process the word holds the next
element of `ws`. `wakes` counts the `wake()` calls of this process only. -/
def runCallEnv : List Nat → Mem → Proc → Input → Mem × Proc
  | [], m, p, _ => (m, p)
  | w :: ws, m, p, inp =>
    match p.pc with
    | .idle => (m, p)
    | .panicked _ => (m, p)
    | _ => let r := stepProc { m with word := w } p inp; runCallEnv ws r.1 r.2 inp

/-- An interleaving from the initial state in which `Unlock` observes
LockedHaveWaiters and returns through its CAS: process 0 locks, process 1
spins 100 times and parks, process 0 starts `Unlock`, loads 2 and stores 0,
process 2 takes the mutex by `TryLock`, process 0 sees the word non-zero and
swaps LockedNoWaiters for LockedHaveWaiters. -/
def reclaimRun : List Event :=
  [⟨0, ⟨.TryLock, none⟩⟩, ⟨0, ⟨.TryLock, none⟩⟩] ++
  List.replicate 103 ⟨1, ⟨.Lock, none⟩⟩ ++
  [⟨0, ⟨.Unlock, none⟩⟩, ⟨0, ⟨.Unlock, none⟩⟩, ⟨0, ⟨.Unlock, none⟩⟩,
   ⟨2, ⟨.TryLock, none⟩⟩, ⟨2, ⟨.TryLock, none⟩⟩,
   ⟨0, ⟨.Unlock, none⟩⟩, ⟨0, ⟨.Unlock, none⟩⟩]

/-- Follows the spec (section 4.5, spin-to-park-reclaim): for up to `n`
iterations, if the word is non-Unlocked, attempt the CAS from LockedNoWaiters
to LockedHaveWaiters; the result is whether some attempt succeeds. `ws` lists
the values the word holds at the successive accesses of the loop (the check,
and the CAS when it is attempted). -/
def reclaimSucceeds : Nat → List Nat → Bool
  | 0, _ => false
  | _ + 1, [] => false
  | n + 1, c :: ws =>
    if c ≠ cInplaceMutexUnlocked then
      match ws with
      | [] => false
      | x :: ws1 => if x = cInplaceMutexLockedNoWaiters then true else reclaimSucceeds n ws1
    else reclaimSucceeds n ws

/-! ## `createMemoryObject` in `OpenOrCreate` mode: rounds -/

/-- The modes of the `NewMemoryObject` calls of `n` complete rounds: a
`CreateOnly` attempt followed by an `OpenOnly` attempt, `n` times. -/
def roundModes (fl : OpenFlags) (mode : Nat) (n : Nat) : List Nat :=
  (List.replicate n [mode ||| fl.O_CREATE_ONLY, mode ||| fl.O_OPEN_ONLY]).flatten

/-- What `createMemoryObject` does in `OpenOrCreate` mode. With `m` the mode
without the `O_OPEN_OR_CREATE` bit: it makes between 1 and 32 calls (at most 16
rounds), alternately `CreateOnly` and `OpenOnly`; an `OpenOnly` attempt is made
only after the `CreateOnly` attempt of the round failed with AlreadyExists; a
further round is started only after the `OpenOnly` attempt failed with
NotFound; and if all 16 rounds fail this way the result is the last NotFound,
`created = false` and no object. -/
def OpenOrCreateRounds (fl : OpenFlags) (plat : Platform) (name : String)
    (mode perm : Nat) : Prop :=
  (createMemoryObject fl plat name mode perm).calls.length ≤ 32 ∧
  1 ≤ (createMemoryObject fl plat name mode perm).calls.length ∧
  (createMemoryObject fl plat name mode perm).calls =
    (roundModes fl (andNot mode fl.O_OPEN_OR_CREATE) 16).take
      (createMemoryObject fl plat name mode perm).calls.length ∧
  (∀ k, 2 * k + 1 < (createMemoryObject fl plat name mode perm).calls.length →
    plat (2 * k) name (andNot mode fl.O_OPEN_OR_CREATE ||| fl.O_CREATE_ONLY) perm
      = .fail .AlreadyExists) ∧
  (∀ k, 2 * k + 2 < (createMemoryObject fl plat name mode perm).calls.length →
    plat (2 * k + 1) name (andNot mode fl.O_OPEN_OR_CREATE ||| fl.O_OPEN_ONLY) perm
      = .fail .NotFound) ∧
  ((∀ k, k < 16 →
      plat (2 * k) name (andNot mode fl.O_OPEN_OR_CREATE ||| fl.O_CREATE_ONLY) perm
        = .fail .AlreadyExists ∧
      plat (2 * k + 1) name (andNot mode fl.O_OPEN_OR_CREATE ||| fl.O_OPEN_ONLY) perm
        = .fail .NotFound) →
    createMemoryObject fl plat name mode perm =
      { obj := none, created := false, err := some .NotFound,
        calls := roundModes fl (andNot mode fl.O_OPEN_OR_CREATE) 16 })

/-- A platform on which another process creates and unlinks the name in a
loop: every create finds the name present, every open finds it absent. -/
def racingPlatform : Platform :=
  fun k _ _ _ => if k % 2 = 0 then .fail .AlreadyExists else .fail .NotFound

/-! ## `spin_mutex.go`: `newSpinMutex` -/

/-- Handle of a mapped region. -/
structure MemoryRegion where
  id : Nat
  deriving DecidableEq, Repr

/-- Source: `type SpinMutex struct`; the embedded `*spinMutexImpl` is the
first word of the region. -/
structure SpinMutex where
  region : MemoryRegion
  name : String
  deriving DecidableEq, Repr

/-- The calls with side effects that `newSpinMutex` makes after
`createMemoryObject`, in program order. -/
inductive Effect where
  | Truncate (obj : MemoryObject) (size : Nat)
  | NewMemoryRegion (obj : MemoryObject)
  | alloc (region : MemoryRegion)
  | ObjClose (obj : MemoryObject)
  | RegionClose (region : MemoryRegion)
  | ObjDestroy (obj : MemoryObject)
  deriving DecidableEq, Repr

/-- The collaborators of `newSpinMutex` that are outside the available
sources: the mode constants, `NewMemoryObject`'s platform, `Truncate`,
`newMemoryRegionImpl` behind `NewMemoryRegion`, and `alloc`. -/
structure SpinPlatform where
  fl : OpenFlags
  O_READWRITE : Nat
  MEM_READWRITE : Nat
  newMemoryObject : Platform
  truncate : MemoryObject → Nat → Option Err
  newMemoryRegion : MemoryObject → Nat → Int → Nat → Res MemoryRegion
  alloc : MemoryRegion → Option Err

/-- Results of `newSpinMutex` with the log of its side-effecting calls. -/
structure NewSpinResult where
  mutex : Option SpinMutex
  err : Option Err
  log : List Effect
  deriving DecidableEq, Repr

/-- Source: `spinName`. -/
def spinName (name : String) : String := "go-ipc.spin." ++ name

/-- Source: the deferred function of `newSpinMutex`, run at return with the
current values of `resultErr` and `region`. -/
def newSpinMutexDeferred (obj : MemoryObject) (created : Bool) (resultErr : Option Err)
    (region : Option MemoryRegion) : List Effect :=
  [Effect.ObjClose obj] ++
    (if resultErr = none then []
     else
      (match region with
        | some rg => [Effect.RegionClose rg]
        | none => []) ++
      (if created then [Effect.ObjDestroy obj] else []))

/-- Source: `newSpinMutex`. `unsafe.Sizeof(spinMutexImpl{})` is 4. A nil
object with a nil error cannot come from `NewMemoryObject`; the method call on
it would be a nil dereference. -/
def newSpinMutex (P : SpinPlatform) (name : String) (mode perm : Nat) :
    Outcome NewSpinResult :=
  let name1 := spinName name
  let c := createMemoryObject P.fl P.newMemoryObject name1 (mode ||| P.O_READWRITE) perm
  match c.err with
  | some e => .ret { mutex := none, err := some e, log := [] }
  | none =>
    match c.obj with
    | none => .panic (.runtime "invalid memory address or nil pointer dereference")
    | some obj =>
      let size : Nat := 4
      match P.truncate obj size with
      | some e =>
        .ret { mutex := none, err := some e,
               log := [Effect.Truncate obj size] ++
                 newSpinMutexDeferred obj c.created (some e) none }
      | none =>
        match P.newMemoryRegion obj P.MEM_READWRITE 0 size with
        | .fail e =>
          .ret { mutex := none, err := some e,
                 log := [Effect.Truncate obj size, Effect.NewMemoryRegion obj] ++
                   newSpinMutexDeferred obj c.created (some e) none }
        | .ok region =>
          if c.created then
            match P.alloc region with
            | some e =>
              .ret { mutex := none, err := some e,
                     log := [Effect.Truncate obj size, Effect.NewMemoryRegion obj,
                         Effect.alloc region] ++
                       newSpinMutexDeferred obj c.created (some e) (some region) }
            | none =>
              .ret { mutex := some { region := region, name := name1 }, err := none,
                     log := [Effect.Truncate obj size, Effect.NewMemoryRegion obj,
                         Effect.alloc region] ++
                       newSpinMutexDeferred obj c.created none (some region) }
          else
            .ret { mutex := some { region := region, name := name1 }, err := none,
                   log := [Effect.Truncate obj size, Effect.NewMemoryRegion obj] ++
                     newSpinMutexDeferred obj c.created none (some region) }

/-- A platform on which the object is created, truncated and mapped, and the
initial `alloc` then fails. -/
def allocFailingPlatform : SpinPlatform :=
  { fl := sampleFlags, O_READWRITE := 32, MEM_READWRITE := 2,
    newMemoryObject := fun _ _ _ _ => .ok { handle := 7 },
    truncate := fun _ _ => none,
    newMemoryRegion := fun _ _ _ _ => .ok { id := 9 },
    alloc := fun _ => some .InvalidArgument }

/-- The rollback of `newSpinMutex` after `createMemoryObject` succeeded with
the object `obj` and the flag `created`: on a failure of `Truncate`, of
`NewMemoryRegion` or of the initial `alloc` the error is returned with no
mutex, and the calls made are, in order: the steps up to the failing one, then
`obj.Close()`, then `region.Close()` if a region was mapped, then
`obj.Destroy()` if and only if `created`. -/
def NewSpinMutexRollback (P : SpinPlatform) (name : String) (mode perm : Nat)
    (obj : MemoryObject) (created : Bool) : Prop :=
  (∀ e, P.truncate obj 4 = some e →
    newSpinMutex P name mode perm = .ret
      { mutex := none, err := some e,
        log := [Effect.Truncate obj 4, Effect.ObjClose obj] ++
          (if created then [Effect.ObjDestroy obj] else []) }) ∧
  (P.truncate obj 4 = none →
    ∀ e, P.newMemoryRegion obj P.MEM_READWRITE 0 4 = .fail e →
    newSpinMutex P name mode perm = .ret
      { mutex := none, err := some e,
        log := [Effect.Truncate obj 4, Effect.NewMemoryRegion obj, Effect.ObjClose obj] ++
          (if created then [Effect.ObjDestroy obj] else []) }) ∧
  (P.truncate obj 4 = none →
    ∀ rg e, P.newMemoryRegion obj P.MEM_READWRITE 0 4 = .ok rg →
    created = true → P.alloc rg = some e →
    newSpinMutex P name mode perm = .ret
      { mutex := none, err := some e,
        log := [Effect.Truncate obj 4, Effect.NewMemoryRegion obj, Effect.alloc rg,
          Effect.ObjClose obj, Effect.RegionClose rg, Effect.ObjDestroy obj] })

/-! # Theorems -/

/-! ## Local facts about one step -/

theorem stepProc_word_le (m : Mem) (p : Proc) (inp : Input) :
    (stepProc m p inp).1.word = m.word ∨ (stepProc m p inp).1.word ≤ 2 := by
  rcases p with ⟨pc, h, l⟩
  cases pc <;>
    simp only [stepProc, inplaceMutex.TryLock, CompareAndSwapUint32, SwapUint32,
      cInplaceMutexUnlocked, cInplaceMutexLockedNoWaiters,
      cInplaceMutexLockedHaveWaiters, cInplaceSpinCount] <;>
    (try split) <;> (try split_ifs) <;> simp_all

/-- A step that newly sets `holds` found the word Unlocked and left it locked. -/
theorem stepProc_acquire (m : Mem) (p : Proc) (inp : Input)
    (h0 : p.holds = false) (h1 : (stepProc m p inp).2.holds = true) :
    m.word = 0 ∧ (stepProc m p inp).1.word ≠ 0 := by
  rcases p with ⟨pc, h, l⟩
  simp only at h0
  subst h0
  revert h1
  cases pc <;>
    simp only [stepProc, finishLock, inplaceMutex.TryLock, inplaceMutex.Lock,
      inplaceMutex.LockTimeout, CompareAndSwapUint32, SwapUint32,
      cInplaceMutexUnlocked, cInplaceMutexLockedNoWaiters,
      cInplaceMutexLockedHaveWaiters, cInplaceSpinCount] <;>
    (try split) <;> (try split_ifs) <;> (try split) <;> simp_all

/-- Only `Init` and the two writes of `Unlock` can make a non-zero word zero. -/
theorem stepProc_release (m : Mem) (p : Proc) (inp : Input)
    (h0 : m.word ≠ 0) (h1 : (stepProc m p inp).1.word = 0) :
    p.pc = .init ∨ ((p.pc = .uStore ∨ p.pc = .uSwap) ∧ (stepProc m p inp).2.holds = false) := by
  rcases p with ⟨pc, h, l⟩
  revert h1
  cases pc <;>
    simp only [stepProc, finishLock, inplaceMutex.TryLock, inplaceMutex.Lock,
      inplaceMutex.LockTimeout, CompareAndSwapUint32, SwapUint32,
      cInplaceMutexUnlocked, cInplaceMutexLockedNoWaiters,
      cInplaceMutexLockedHaveWaiters, cInplaceSpinCount] <;>
    (try split) <;> (try split_ifs) <;> (try split) <;> simp_all

/-- A process is before the write of `Unlock` only if it was already there, or
has just started `Unlock`; such a step does not change `holds`. -/
theorem stepProc_unlockPre (m : Mem) (p : Proc) (inp : Input)
    (h1 : (stepProc m p inp).2.pc.unlockPre = true) :
    (p.pc = .uLoad ∨ (p.pc = .idle ∧ inp.op = .Unlock)) ∧
      (stepProc m p inp).2.holds = p.holds := by
  rcases p with ⟨pc, h, l⟩
  rcases inp with ⟨op, wr⟩
  revert h1
  cases pc <;>
    simp only [stepProc, finishLock, inplaceMutex.TryLock, inplaceMutex.Lock,
      inplaceMutex.LockTimeout, CompareAndSwapUint32, SwapUint32,
      cInplaceMutexUnlocked, cInplaceMutexLockedNoWaiters,
      cInplaceMutexLockedHaveWaiters, cInplaceSpinCount] <;>
    (try split) <;> (try split_ifs) <;> (try split) <;>
    simp_all [Pc.unlockPre]

/-- A process reaches the store of `Init` only by starting `Init`. -/
theorem stepProc_init (m : Mem) (p : Proc) (inp : Input)
    (h1 : (stepProc m p inp).2.pc = .init) : p.pc = .idle ∧ inp.op = .Init := by
  rcases p with ⟨pc, h, l⟩
  rcases inp with ⟨op, wr⟩
  revert h1
  cases pc <;>
    simp only [stepProc, finishLock, inplaceMutex.TryLock, inplaceMutex.Lock,
      inplaceMutex.LockTimeout, CompareAndSwapUint32, SwapUint32,
      cInplaceMutexUnlocked, cInplaceMutexLockedNoWaiters,
      cInplaceMutexLockedHaveWaiters, cInplaceSpinCount] <;>
    (try split) <;> (try split_ifs) <;> (try split) <;> simp_all

/-! ## The mutual-exclusion invariant: preservation -/

theorem Inv_initial : Inv Sys.initial := by
  constructor <;> simp [Sys.initial, Pc.unlockPre]

theorem step_procs_self (s : Sys) (e : Event) :
    (step s e).procs e.pid = (stepProc s.mem (s.procs e.pid) e.inp).2 := by
  simp [step]

theorem step_procs_other (s : Sys) (e : Event) (i : Nat) (h : i ≠ e.pid) :
    (step s e).procs i = s.procs i := by
  simp [step, Function.update_noteq h]

theorem step_mem (s : Sys) (e : Event) :
    (step s e).mem = (stepProc s.mem (s.procs e.pid) e.inp).1 := rfl

theorem Inv_step (s : Sys) (e : Event) (hI : Inv s) (hd : disciplined s e = true) :
    Inv (step s e) := by
  have hnoinit := hI.noInit e.pid
  -- the stepping process cannot clear the word while somebody else holds
  have keep : ∀ i, i ≠ e.pid → (s.procs i).holds = true → (step s e).mem.word ≠ 0 := by
    intro i hi hh hz
    have hw := hI.locked i hh
    rcases stepProc_release s.mem (s.procs e.pid) e.inp hw (by rw [← step_mem]; exact hz)
      with h | ⟨h, _⟩
    · exact hnoinit h
    · have hp : (s.procs e.pid).pc.unlockPre = true := by
        rcases h with h | h <;> simp [h, Pc.unlockPre]
      exact hi (hI.unique i e.pid hh (hI.pre e.pid hp))
  -- the stepping process cannot acquire while somebody else holds
  have excl : ∀ i, i ≠ e.pid → (s.procs i).holds = true →
      ((step s e).procs e.pid).holds = true → False := by
    intro i hi hh hk
    rw [step_procs_self] at hk
    cases hp : (s.procs e.pid).holds with
    | true => exact hi (hI.unique i e.pid hh hp)
    | false => exact hI.locked i hh (stepProc_acquire s.mem _ e.inp hp hk).1
  constructor
  · intro i hh
    by_cases hi : i = e.pid
    · subst hi
      rw [step_procs_self] at hh
      rw [step_mem]
      cases hp : (s.procs e.pid).holds with
      | false => exact (stepProc_acquire s.mem _ e.inp hp hh).2
      | true =>
        intro hz
        rcases stepProc_release s.mem _ e.inp (hI.locked e.pid hp) hz with h | ⟨_, h⟩
        · exact hnoinit h
        · rw [h] at hh; exact Bool.false_ne_true hh
    · rw [step_procs_other s e i hi] at hh
      exact keep i hi hh
  · intro i j hi hj
    by_cases h1 : i = e.pid <;> by_cases h2 : j = e.pid
    · rw [h1, h2]
    · rw [step_procs_other s e j h2] at hj
      rw [h1] at hi
      exact (excl j h2 hj hi).elim
    · rw [step_procs_other s e i h1] at hi
      rw [h2] at hj
      exact (excl i h1 hi hj).elim
    · rw [step_procs_other s e i h1] at hi
      rw [step_procs_other s e j h2] at hj
      exact hI.unique i j hi hj
  · intro i hp
    by_cases hi : i = e.pid
    · subst hi
      rw [step_procs_self] at hp ⊢
      obtain ⟨hc, hh⟩ := stepProc_unlockPre s.mem _ e.inp hp
      rw [hh]
      rcases hc with hc | ⟨hc1, hc2⟩
      · exact hI.pre e.pid (by simp [hc, Pc.unlockPre])
      · simpa [disciplined, hc1, hc2] using hd
    · rw [step_procs_other s e i hi] at hp ⊢
      exact hI.pre i hp
  · intro i
    by_cases hi : i = e.pid
    · subst hi
      rw [step_procs_self]
      intro h
      obtain ⟨hc1, hc2⟩ := stepProc_init s.mem _ e.inp h
      simp [disciplined, hc1, hc2] at hd
    · rw [step_procs_other s e i hi]
      exact hI.noInit i

theorem Inv_run (es : List Event) :
    ∀ s : Sys, Inv s → disciplinedRun s es = true → Inv (run s es) := by
  induction es with
  | nil => intro s hI _; exact hI
  | cons e es ih =>
    intro s hI hd
    simp only [disciplinedRun, Bool.and_eq_true] at hd
    exact ih (step s e) (Inv_step s e hI hd.1) hd.2

/-! ## Runs of a single call -/

theorem runCall_idle (fuel : Nat) (m : Mem) (p : Proc) (inp : Input) (h : p.pc = .idle) :
    runCall fuel m p inp = (m, p) := by
  cases fuel with
  | zero => rfl
  | succ n => simp [runCall, h]

theorem runCall_panicked (fuel : Nat) (m : Mem) (p : Proc) (inp : Input) (v : PanicVal)
    (h : p.pc = .panicked v) : runCall fuel m p inp = (m, p) := by
  cases fuel with
  | zero => rfl
  | succ n => simp [runCall, h]

/-- With the word Unlocked and nobody else stepping, the spin loop of `Unlock`
runs to its end and calls `wake()` once. -/
theorem runCall_uSpin (k : Nat) : ∀ (i fuel wakes : Nat) (h : Bool) (l : Option Ret)
    (inp : Input), i + k = 100 → k + 1 ≤ fuel →
    runCall fuel ⟨0, wakes⟩ ⟨.uSpin i, h, l⟩ inp
      = (⟨0, wakes + 1⟩, ⟨.idle, h, some .unit⟩) := by
  induction k with
  | zero =>
    intro i fuel wakes h l inp hi hf
    obtain ⟨f, rfl⟩ : ∃ f, fuel = f + 1 := ⟨fuel - 1, by omega⟩
    have hi' : i = 100 := by omega
    subst hi'
    simp [runCall, stepProc, cInplaceSpinCount, runCall_idle]
  | succ k ih =>
    intro i fuel wakes h l inp hi hf
    obtain ⟨f, rfl⟩ : ∃ f, fuel = f + 1 := ⟨fuel - 1, by omega⟩
    have hlt : i < 100 := by omega
    have := ih (i + 1) f wakes h l inp (by omega) (by omega)
    simp [runCall, stepProc, cInplaceSpinCount, cInplaceMutexUnlocked, hlt, this]

/-! ## Claims -/

/-- C1. Mutual exclusion of the in-place mutex: in every interleaving of the
atomic steps of any number of processes that starts from the Unlocked word and
in which `Unlock` is started only by a process that holds the mutex, two
different processes never hold the mutex at the same time (a process holds
from the atomic step of its successful acquire until the step of its `Unlock`
that writes Unlocked). -/
theorem inplaceMutex_mutual_exclusion (es : List Event)
    (hd : disciplinedRun Sys.initial es = true) (i j : Nat) (hij : i ≠ j)
    (hi : ((run Sys.initial es).procs i).holds = true) :
    ((run Sys.initial es).procs j).holds = false := by
  have hI := Inv_run es Sys.initial Inv_initial hd
  cases hj : ((run Sys.initial es).procs j).holds with
  | false => rfl
  | true => exact (hij (hI.unique i j hi hj)).elim

/-- C2. `TryLock` returns true iff the word was Unlocked at its CAS; on true
the word becomes LockedNoWaiters, on false the word is unchanged. -/
theorem inplaceMutex_TryLock_iff (w : Nat) :
    ((inplaceMutex.TryLock w).2 = true ↔ w = cInplaceMutexUnlocked) ∧
    (inplaceMutex.TryLock w).1 =
      (if (inplaceMutex.TryLock w).2 then cInplaceMutexLockedNoWaiters else w) := by
  unfold inplaceMutex.TryLock CompareAndSwapUint32
  by_cases h : w = cInplaceMutexUnlocked <;> simp [h]

/-- C3. State-word invariant: every atomic step of any operation (`Init`,
`TryLock`, `Lock`, `LockTimeout`, `Unlock`, started by anyone at any time, with
any results of `wait`) either leaves the word unchanged or writes a value in
{0,1,2}; hence from a word in {0,1,2} every interleaving keeps it there. -/
theorem inplaceMutex_word_invariant :
    (∀ (s : Sys) (e : Event),
      (step s e).mem.word = s.mem.word ∨ (step s e).mem.word ≤ 2) ∧
    (∀ (es : List Event) (s : Sys), s.mem.word ≤ 2 → (run s es).mem.word ≤ 2) := by
  have h1 : ∀ (s : Sys) (e : Event),
      (step s e).mem.word = s.mem.word ∨ (step s e).mem.word ≤ 2 :=
    fun s e => stepProc_word_le s.mem (s.procs e.pid) e.inp
  refine ⟨h1, ?_⟩
  intro es
  induction es with
  | nil => intro s hs; exact hs
  | cons e es ih =>
    intro s hs
    apply ih (step s e)
    rcases h1 s e with h | h
    · rw [h]; exact hs
    · exact h

/-- C4. `Unlock` whose initial load observes Unlocked panics with "unlock of
unlocked mutex": the load step leads to the panicked state with the word and
the number of `wake()` calls unchanged, and the call performs no further step. -/
theorem inplaceMutex_Unlock_unlocked_panics (wakes : Nat) (h : Bool) (l : Option Ret)
    (inp : Input) (fuel : Nat) :
    stepProc ⟨cInplaceMutexUnlocked, wakes⟩ ⟨.uLoad, h, l⟩ inp
      = (⟨cInplaceMutexUnlocked, wakes⟩,
         ⟨.panicked (.str "unlock of unlocked mutex"), h, l⟩) ∧
    runCall (fuel + 1) ⟨cInplaceMutexUnlocked, wakes⟩ ⟨.uLoad, h, l⟩ inp
      = (⟨cInplaceMutexUnlocked, wakes⟩,
         ⟨.panicked (.str "unlock of unlocked mutex"), h, l⟩) := by
  have h1 : stepProc ⟨cInplaceMutexUnlocked, wakes⟩ ⟨.uLoad, h, l⟩ inp
      = (⟨cInplaceMutexUnlocked, wakes⟩,
         ⟨.panicked (.str "unlock of unlocked mutex"), h, l⟩) := by
    simp [stepProc, cInplaceMutexUnlocked, cInplaceMutexLockedHaveWaiters]
  refine ⟨h1, ?_⟩
  rw [runCall]
  simp only [h1]
  exact runCall_panicked fuel _ _ inp _ rfl

/-- C5. From a word holding LockedNoWaiters or LockedHaveWaiters, `Unlock` run
with no other process stepping returns normally (within 103 steps) with the
word Unlocked, and a `TryLock` that follows immediately returns true. -/
theorem inplaceMutex_Unlock_then_TryLock (w wakes : Nat) (h : Bool) (l : Option Ret)
    (inp : Input) (fuel : Nat)
    (hw : w = cInplaceMutexLockedNoWaiters ∨ w = cInplaceMutexLockedHaveWaiters)
    (hf : 103 ≤ fuel) :
    (runCall fuel ⟨w, wakes⟩ ⟨.uLoad, h, l⟩ inp).2.pc = .idle ∧
    (runCall fuel ⟨w, wakes⟩ ⟨.uLoad, h, l⟩ inp).2.last = some .unit ∧
    (runCall fuel ⟨w, wakes⟩ ⟨.uLoad, h, l⟩ inp).1.word = cInplaceMutexUnlocked ∧
    inplaceMutex.TryLock (runCall fuel ⟨w, wakes⟩ ⟨.uLoad, h, l⟩ inp).1.word
      = (cInplaceMutexLockedNoWaiters, true) := by
  obtain ⟨f, rfl⟩ : ∃ f, fuel = f + 3 := ⟨fuel - 3, by omega⟩
  rcases hw with rfl | rfl
  · have : runCall (f + 3) ⟨cInplaceMutexLockedNoWaiters, wakes⟩ ⟨.uLoad, h, l⟩ inp
        = (⟨0, wakes⟩, ⟨.idle, false, some .unit⟩) := by
      simp [runCall, stepProc, SwapUint32, cInplaceMutexUnlocked,
        cInplaceMutexLockedNoWaiters, cInplaceMutexLockedHaveWaiters]
    rw [this]
    simp [inplaceMutex.TryLock, CompareAndSwapUint32, cInplaceMutexUnlocked]
  · have hs := runCall_uSpin 100 0 (f + 1) wakes false l inp (by omega) (by omega)
    have : runCall (f + 3) ⟨cInplaceMutexLockedHaveWaiters, wakes⟩ ⟨.uLoad, h, l⟩ inp
        = (⟨0, wakes + 1⟩, ⟨.idle, false, some .unit⟩) := by
      rw [runCall]
      simp only [stepProc, cInplaceMutexLockedHaveWaiters, if_true]
      rw [runCall]
      simp only [stepProc, cInplaceMutexUnlocked]
      exact hs
    rw [this]
    simp [inplaceMutex.TryLock, CompareAndSwapUint32, cInplaceMutexUnlocked]

theorem inplaceMutex_mutual_exclusion_witness :
    disciplinedRun Sys.initial handOverRun = true ∧
    ((run Sys.initial handOverRun).procs 1).holds = true ∧
    ((run Sys.initial handOverRun).procs 0).holds = false :=
  ⟨by decide, by decide,
    inplaceMutex_mutual_exclusion handOverRun (by decide) 1 0 (by decide) (by decide)⟩

theorem inplaceMutex_word_invariant_witness :
    Sys.initial.mem.word ≤ 2 ∧ (run Sys.initial wildRun).mem.word ≤ 2 :=
  ⟨by decide, inplaceMutex_word_invariant.2 wildRun Sys.initial (by decide)⟩

theorem inplaceMutex_Unlock_then_TryLock_witness :
    (runCall 103 ⟨2, 0⟩ ⟨.uLoad, true, none⟩ ⟨.Unlock, none⟩).2.pc = .idle ∧
    (runCall 103 ⟨2, 0⟩ ⟨.uLoad, true, none⟩ ⟨.Unlock, none⟩).2.last = some .unit ∧
    (runCall 103 ⟨2, 0⟩ ⟨.uLoad, true, none⟩ ⟨.Unlock, none⟩).1.word
      = cInplaceMutexUnlocked ∧
    inplaceMutex.TryLock (runCall 103 ⟨2, 0⟩ ⟨.uLoad, true, none⟩ ⟨.Unlock, none⟩).1.word
      = (cInplaceMutexLockedNoWaiters, true) :=
  inplaceMutex_Unlock_then_TryLock 2 0 true none ⟨.Unlock, none⟩ 103
    (Or.inr rfl) (by decide)

/-- C6. `LockTimeout` of the in-place mutex, of `FutexMutex` and of
`SemaMutex` returns true exactly when the timed acquire returned no error,
false exactly when it returned a timeout error, and panics with the error
exactly for every other error. -/
theorem LockTimeout_three_way :
    LockTimeoutContract inplaceMutex.LockTimeout ∧
    LockTimeoutContract FutexMutex.LockTimeout ∧
    LockTimeoutContract SemaMutex.LockTimeout := by
  refine ⟨?_, ?_, ?_⟩ <;>
  · intro isT err
    cases err with
    | none => simp [inplaceMutex.LockTimeout, FutexMutex.LockTimeout, SemaMutex.LockTimeout]
    | some e =>
      cases ht : isT e
      · refine ⟨?_, ?_, ?_⟩
        · simp [inplaceMutex.LockTimeout, FutexMutex.LockTimeout, SemaMutex.LockTimeout, ht]
        · simp [inplaceMutex.LockTimeout, FutexMutex.LockTimeout, SemaMutex.LockTimeout, ht]
        · intro v
          simp only [inplaceMutex.LockTimeout, FutexMutex.LockTimeout,
            SemaMutex.LockTimeout, ht]
          constructor
          · intro h
            injection h with h
            exact ⟨e, rfl, ht, h.symm⟩
          · rintro ⟨e1, he, _, rfl⟩
            injection he with he
            subst he
            rfl
      · refine ⟨?_, ?_, ?_⟩
        · simp [inplaceMutex.LockTimeout, FutexMutex.LockTimeout, SemaMutex.LockTimeout, ht]
        · simp [inplaceMutex.LockTimeout, FutexMutex.LockTimeout, SemaMutex.LockTimeout, ht]
        · intro v
          simp only [inplaceMutex.LockTimeout, FutexMutex.LockTimeout,
            SemaMutex.LockTimeout, ht]
          constructor
          · intro h
            simp at h
          · rintro ⟨e1, he, hf, _⟩
            injection he with he
            subst he
            rw [ht] at hf
            exact absurd hf (by decide)

/-- In `OpenOrCreate` mode, when the first `CreateOnly` attempt fails with an
error other than AlreadyExists, `createMemoryObject` returns that error
together with `created = true`. -/
theorem createMemoryObject_created_on_error (fl : OpenFlags) (plat : Platform)
    (name : String) (mode perm : Nat) (e : Err)
    (h1 : mode &&& (fl.O_OPEN_ONLY ||| fl.O_CREATE_ONLY) = 0)
    (h2 : mode &&& fl.O_OPEN_OR_CREATE ≠ 0)
    (he : e ≠ .AlreadyExists)
    (hp : plat 0 name (andNot mode fl.O_OPEN_OR_CREATE ||| fl.O_CREATE_ONLY) perm = .fail e) :
    createMemoryObject fl plat name mode perm =
      { obj := none, created := true, err := some e,
        calls := [andNot mode fl.O_OPEN_OR_CREATE ||| fl.O_CREATE_ONLY] } := by
  have hx : IsExist (some e) = false := by
    cases e <;> simp_all [IsExist]
  simp [createMemoryObject, h1, h2, createMemoryObjectLoop, CreateResult.assign, hp, hx]

/-- C7. On the code, `created` is not "true iff this call created the object":
in `OpenOrCreate` mode with a platform that refuses the creation with
PermissionDenied, `createMemoryObject` returns no object, the error, and
`created = true`. -/
theorem createMemoryObject_created_with_error :
    createMemoryObject sampleFlags denyingPlatform "m" sampleFlags.O_OPEN_OR_CREATE 438 =
      { obj := none, created := true, err := some .PermissionDenied,
        calls := [sampleFlags.O_CREATE_ONLY] } := by
  decide

theorem wrap64_of_range (x : Int) (h0 : -2 ^ 63 ≤ x) (h1 : x < 2 ^ 63) : wrap64 x = x := by
  unfold wrap64
  rw [Int.emod_eq_of_lt (by omega) (by omega)]
  omega

/-- For an offset inside the region (`0 <= off <= len(data)`) `WriteAt` copies
`n = min(len(p), len(data) - off)` bytes of `p` to `data[off .. off+n)`, leaves
the other bytes unchanged and reports `io.EOF` exactly when `n < len(p)`. -/
theorem WriteAt_in_range (data p : List Nat) (off : Nat) (h : off ≤ data.length)
    (hL : (data.length : Int) < 2 ^ 63) :
    WriteAt data p (off : Int) = .ret
      { data := data.take off ++ p.take (min p.length (data.length - off)) ++
          data.drop (off + min p.length (data.length - off)),
        n := ((min p.length (data.length - off) : Nat) : Int),
        err := if min p.length (data.length - off) < p.length then some .EOF else none } := by
  have hwrap : wrap64 ((data.length : Int) - (off : Int)) = (data.length : Int) - (off : Int) :=
    wrap64_of_range _ (by omega) (by omega)
  by_cases hlt : off < data.length
  · have hn0 : ((data.length : Int) - (off : Int)) > 0 := by omega
    have hoff : ¬ ((off : Int) < 0) := by omega
    have hn : (if ((data.length : Int) - (off : Int)) > (p.length : Int) then (p.length : Int)
        else (data.length : Int) - (off : Int)) = ((min p.length (data.length - off) : Nat) : Int) := by
      split_ifs with hc
      · rw [Nat.min_eq_left (by omega)]
      · rw [Nat.min_eq_right (by omega)]; omega
    simp only [WriteAt, hwrap, hn0, if_true, hoff, if_false, hn, Int.toNat_ofNat]
    have hk : min p.length (data.length - off) ≤ p.length := Nat.min_le_left _ _
    have hk2 : min p.length (data.length - off) ≤ data.length - off := Nat.min_le_right _ _
    congr 2
    · simp only [goCopy, List.length_drop, List.length_take]
      rw [Nat.min_eq_left hk, Nat.min_eq_right hk2, List.take_take, Nat.min_self,
        List.drop_drop, List.append_assoc]
    · simp [Nat.cast_lt]
  · have he : off = data.length := by omega
    subst he
    simp [WriteAt, wrap64]

/-- At the least offset the subtraction wraps around: the count is negative
and nothing is written. -/
theorem WriteAt_min_offset :
    WriteAt [0, 0, 0, 0] [1] (-9223372036854775808)
      = .ret ⟨[0, 0, 0, 0], -9223372036854775804, some .EOF⟩ := by
  decide

/-- C8. On the code, `WriteAt` past the end of the region returns a negative
count: for a region of 4 bytes, a one-byte buffer and offset 10 it returns
`n = -6` with `io.EOF`, not `n = 0`. -/
theorem WriteAt_negative_count :
    WriteAt [0, 0, 0, 0] [1] 10 = .ret ⟨[0, 0, 0, 0], -6, some .EOF⟩ := by
  decide

/-- C10 (counterexample). A double unlock of the spin mutex does not panic:
`Lock`, `Unlock`, `Unlock` from the value 0 all return normally. -/
theorem spinMutexImpl_double_unlock_returns :
    spinMutexImpl.Lock 1 0 = some 1 ∧
    spinMutexImpl.Unlock 1 = (0, .ret ()) ∧
    spinMutexImpl.Unlock 0 = (0, .ret ()) := by
  decide

/-- C10 (amended). For every value of the spin mutex, 0 (not locked)
included, `Unlock` stores 0 and returns normally: a double unlock is not
detected. The mutex is then free: `TryLock` succeeds and `Lock` returns at its
first attempt. -/
theorem spinMutexImpl_Unlock_never_panics (value : Nat) :
    spinMutexImpl.Unlock value = (0, .ret ()) ∧
    spinMutexImpl.TryLock (spinMutexImpl.Unlock value).1 = (1, true) ∧
    spinMutexImpl.Lock 1 (spinMutexImpl.Unlock value).1 = some 1 := by
  refine ⟨rfl, ?_, ?_⟩
  · simp [spinMutexImpl.Unlock, spinMutexImpl.TryLock, StoreUint32, CompareAndSwapUint32]
  · simp [spinMutexImpl.Unlock, spinMutexImpl.Lock, spinMutexImpl.TryLock, StoreUint32,
      CompareAndSwapUint32]

/-- C9. For a page size `pg > 0` and an offset `>= 0` (both `int64`),
`calcMmapOffsetFixup` returns `offset mod pg`, which lies in `[0, pg)`, and
`offset` minus the result is a multiple of `pg`. -/
theorem calcMmapOffsetFixup_mod (pg offset : Int) (hpg : 0 < pg) (hpg1 : pg < 2 ^ 63)
    (h0 : 0 ≤ offset) (h1 : offset < 2 ^ 63) :
    calcMmapOffsetFixup pg offset = offset % pg ∧
    0 ≤ calcMmapOffsetFixup pg offset ∧
    calcMmapOffsetFixup pg offset < pg ∧
    pg ∣ offset - calcMmapOffsetFixup pg offset := by
  have hne : pg ≠ 0 := by omega
  have hq : Int.tdiv offset pg = offset / pg := Int.tdiv_eq_ediv h0 (le_of_lt hpg)
  have hle : offset / pg * pg ≤ offset := Int.ediv_mul_le offset hne
  have hq0 : 0 ≤ offset / pg := Int.ediv_nonneg h0 (le_of_lt hpg)
  have hm0 : 0 ≤ offset / pg * pg := Int.mul_nonneg hq0 (le_of_lt hpg)
  have hmod : offset - offset / pg * pg = offset % pg := by
    rw [Int.emod_def, Int.mul_comm]
  have hr0 : 0 ≤ offset % pg := Int.emod_nonneg offset hne
  have hr1 : offset % pg < pg := Int.emod_lt_of_pos offset hpg
  have e : calcMmapOffsetFixup pg offset = offset % pg := by
    unfold calcMmapOffsetFixup
    have w1 : wrap64 (offset / pg * pg) = offset / pg * pg :=
      wrap64_of_range _ (by omega) (by omega)
    rw [hq, w1, hmod]
    exact wrap64_of_range _ (by omega) (by omega)
  rw [e]
  exact ⟨rfl, hr0, hr1, Int.dvd_sub_of_emod_eq rfl⟩

theorem calcMmapOffsetFixup_mod_witness :
    calcMmapOffsetFixup 4096 10000 = 10000 % 4096 ∧
    0 ≤ calcMmapOffsetFixup 4096 10000 ∧
    calcMmapOffsetFixup 4096 10000 < 4096 ∧
    (4096 : Int) ∣ 10000 - calcMmapOffsetFixup 4096 10000 :=
  calcMmapOffsetFixup_mod 4096 10000 (by decide) (by decide) (by decide) (by decide)

/-- C11 (counterexample). When the mutex does not exist (the open fails with
NotFound), `DestroyFutexMutex` returns nil, not NotFound. -/
theorem DestroyFutexMutex_absent_returns_nil :
    NewFutexMutex absentFutex "m" sampleFlags.O_OPEN_ONLY 438 = .fail .NotFound ∧
    DestroyFutexMutex sampleFlags absentFutex (fun _ => none) "m" = none ∧
    DestroyFutexMutex sampleFlags absentFutex (fun _ => none) "m" ≠ some .NotFound := by
  decide

/-- C11 (amended). For every name whose open with `O_OPEN_ONLY` fails with a
not-exist error, `DestroyFutexMutex` returns nil. -/
theorem DestroyFutexMutex_not_exist (fl : OpenFlags)
    (newFutex : String → Nat → Nat → Nat → Int → Res Futex)
    (futexDestroy : Futex → Option Err) (name : String) (e : Err)
    (hopen : NewFutexMutex newFutex name fl.O_OPEN_ONLY 438 = .fail e)
    (hne : IsNotExist (some e) = true) :
    DestroyFutexMutex fl newFutex futexDestroy name = none := by
  simp [DestroyFutexMutex, hopen, hne]

theorem DestroyFutexMutex_not_exist_witness :
    NewFutexMutex absentFutex "gone" sampleFlags.O_OPEN_ONLY 438 = .fail .NotFound ∧
    IsNotExist (some Err.NotFound) = true ∧
    DestroyFutexMutex sampleFlags absentFutex (fun _ => some .Unsupported) "gone" = none :=
  ⟨by decide, by decide,
    DestroyFutexMutex_not_exist sampleFlags absentFutex (fun _ => some .Unsupported) "gone"
      .NotFound (by decide) (by decide)⟩

/-- The other outcomes of `DestroyFutexMutex`: any other open error is
returned, and after a successful open the result is that of `Destroy`. -/
theorem DestroyFutexMutex_other (fl : OpenFlags)
    (newFutex : String → Nat → Nat → Nat → Int → Res Futex)
    (futexDestroy : Futex → Option Err) (name : String) :
    (∀ e, NewFutexMutex newFutex name fl.O_OPEN_ONLY 438 = .fail e →
      IsNotExist (some e) = false →
      DestroyFutexMutex fl newFutex futexDestroy name = some e) ∧
    (∀ m, NewFutexMutex newFutex name fl.O_OPEN_ONLY 438 = .ok m →
      DestroyFutexMutex fl newFutex futexDestroy name = futexDestroy m.futex) := by
  constructor
  · intro e h1 h2
    simp [DestroyFutexMutex, h1, h2]
  · intro m h1
    simp [DestroyFutexMutex, h1, FutexMutex.Destroy]

/-! ## `Unlock` under interference -/

theorem runCallEnv_idle (ws : List Nat) (m : Mem) (p : Proc) (inp : Input)
    (h : p.pc = .idle) : runCallEnv ws m p inp = (m, p) := by
  cases ws with
  | nil => rfl
  | cons w ws => simp [runCallEnv, h]

/-- From the head of the spin loop of `Unlock` with `n` iterations left, the
call returns whatever values the word takes; it has called `wake()` exactly
when no CAS of the loop succeeded, and after a successful CAS the word is
LockedHaveWaiters. -/
theorem runCallEnv_unlock_loop (n : Nat) :
    ∀ (ws : List Nat) (m : Mem) (l : Option Ret) (inp : Input) (i : Nat),
      i + n = 100 → 2 * n + 1 ≤ ws.length →
      (runCallEnv ws m ⟨.uSpin i, false, l⟩ inp).2 = ⟨.idle, false, some .unit⟩ ∧
      (runCallEnv ws m ⟨.uSpin i, false, l⟩ inp).1.wakes
        = (if reclaimSucceeds n ws then m.wakes else m.wakes + 1) ∧
      (reclaimSucceeds n ws = true →
        (runCallEnv ws m ⟨.uSpin i, false, l⟩ inp).1.word
          = cInplaceMutexLockedHaveWaiters) := by
  induction n with
  | zero =>
    intro ws m l inp i hi hl
    cases ws with
    | nil => exact absurd hl (by simp)
    | cons w ws =>
      have hi1 : ¬ i < 100 := by omega
      simp [runCallEnv, stepProc, cInplaceSpinCount, hi1, runCallEnv_idle, reclaimSucceeds]
  | succ n ih =>
    intro ws m l inp i hi hl
    have hlt : i < 100 := by omega
    cases ws with
    | nil => exact absurd hl (by simp)
    | cons c ws =>
      have hl1 : 2 * n + 2 ≤ ws.length := by
        have : 2 * (n + 1) + 1 ≤ ws.length + 1 := by simpa using hl
        omega
      by_cases hc : c = 0
      · have := ih ws { m with word := c } l inp (i + 1) (by omega) (by omega)
        simpa [runCallEnv, stepProc, cInplaceSpinCount, cInplaceMutexUnlocked, hlt, hc,
          reclaimSucceeds] using this
      · cases ws with
        | nil => exact absurd hl1 (by simp)
        | cons x ws =>
          have hl2 : 2 * n + 1 ≤ ws.length := by
            have : 2 * n + 2 ≤ ws.length + 1 := by simpa using hl1
            omega
          by_cases hx : x = 1
          · simp [runCallEnv, stepProc, cInplaceSpinCount, cInplaceMutexUnlocked,
              CompareAndSwapUint32, cInplaceMutexLockedNoWaiters,
              cInplaceMutexLockedHaveWaiters, hlt, hc, hx, runCallEnv_idle, reclaimSucceeds]
          · have := ih ws { m with word := x } l inp (i + 1) (by omega) hl2
            simpa [runCallEnv, stepProc, cInplaceSpinCount, cInplaceMutexUnlocked,
              CompareAndSwapUint32, cInplaceMutexLockedNoWaiters,
              cInplaceMutexLockedHaveWaiters, hlt, hc, hx, reclaimSucceeds] using this

set_option maxRecDepth 100000 in
/-- C12 (counterexample). In the interleaving `reclaimRun` from the initial
state, the `Unlock` of process 0 loads LockedHaveWaiters, stores Unlocked, and
returns normally although `wake()` was never called, while process 1 is still
parked in `wait`. -/
theorem inplaceMutex_Unlock_returns_without_wake :
    disciplinedRun Sys.initial reclaimRun = true ∧
    (run Sys.initial (reclaimRun.take 106)).mem.word = cInplaceMutexLockedHaveWaiters ∧
    ((run Sys.initial (reclaimRun.take 106)).procs 0).pc = .uLoad ∧
    ((run Sys.initial (reclaimRun.take 107)).procs 0).pc = .uStore ∧
    (run Sys.initial (reclaimRun.take 108)).mem.word = cInplaceMutexUnlocked ∧
    (run Sys.initial reclaimRun).procs 0 = ⟨.idle, false, some .unit⟩ ∧
    ((run Sys.initial reclaimRun).procs 1).pc = .lWait .Lock ∧
    (run Sys.initial reclaimRun).mem.wakes = 0 := by
  decide

/-- C12 (amended). When the initial load of `Unlock` observes
LockedHaveWaiters, `Unlock` stores Unlocked and then, for every behaviour of
the other processes on the word (`w1` and `ws` are the values the word holds
at the following accesses of the call), returns normally within 203 steps;
it has called `wake()` exactly once, unless in its spin loop it found the word
non-zero and its CAS from LockedNoWaiters to LockedHaveWaiters succeeded: then
it has not called `wake()` and leaves the word at LockedHaveWaiters. -/
theorem inplaceMutex_Unlock_wake_unless_reclaim (ws : List Nat) (w0 w1 wakes : Nat)
    (h : Bool) (l : Option Ret) (inp : Input) (hlen : 201 ≤ ws.length) :
    stepProc ⟨cInplaceMutexLockedHaveWaiters, wakes⟩ ⟨.uLoad, h, l⟩ inp
      = (⟨cInplaceMutexLockedHaveWaiters, wakes⟩, ⟨.uStore, h, l⟩) ∧
    stepProc ⟨w1, wakes⟩ ⟨.uStore, h, l⟩ inp
      = (⟨cInplaceMutexUnlocked, wakes⟩, ⟨.uSpin 0, false, l⟩) ∧
    (runCallEnv (cInplaceMutexLockedHaveWaiters :: w1 :: ws) ⟨w0, wakes⟩
        ⟨.uLoad, h, l⟩ inp).2 = ⟨.idle, false, some .unit⟩ ∧
    (runCallEnv (cInplaceMutexLockedHaveWaiters :: w1 :: ws) ⟨w0, wakes⟩
        ⟨.uLoad, h, l⟩ inp).1.wakes
      = (if reclaimSucceeds cInplaceSpinCount ws then wakes else wakes + 1) ∧
    (reclaimSucceeds cInplaceSpinCount ws = true →
      (runCallEnv (cInplaceMutexLockedHaveWaiters :: w1 :: ws) ⟨w0, wakes⟩
          ⟨.uLoad, h, l⟩ inp).1.word = cInplaceMutexLockedHaveWaiters) := by
  have hrun : runCallEnv (cInplaceMutexLockedHaveWaiters :: w1 :: ws) ⟨w0, wakes⟩
      ⟨.uLoad, h, l⟩ inp = runCallEnv ws ⟨0, wakes⟩ ⟨.uSpin 0, false, l⟩ inp := by
    simp [runCallEnv, stepProc, cInplaceMutexLockedHaveWaiters, cInplaceMutexUnlocked]
  have hloop := runCallEnv_unlock_loop 100 ws ⟨0, wakes⟩ l inp 0 (by omega) (by omega)
  refine ⟨by simp [stepProc, cInplaceMutexLockedHaveWaiters],
    by simp [stepProc, cInplaceMutexUnlocked], ?_, ?_, ?_⟩
  · rw [hrun]; exact hloop.1
  · rw [hrun]; exact hloop.2.1
  · rw [hrun]; exact hloop.2.2

theorem inplaceMutex_Unlock_wake_unless_reclaim_witness :
    201 ≤ (1 :: 1 :: List.replicate 199 0).length ∧
    (runCallEnv (cInplaceMutexLockedHaveWaiters :: 2 :: 1 :: 1 :: List.replicate 199 0)
        ⟨2, 0⟩ ⟨.uLoad, true, none⟩ ⟨.Unlock, none⟩).2 = ⟨.idle, false, some .unit⟩ ∧
    (runCallEnv (cInplaceMutexLockedHaveWaiters :: 2 :: 1 :: 1 :: List.replicate 199 0)
        ⟨2, 0⟩ ⟨.uLoad, true, none⟩ ⟨.Unlock, none⟩).1.wakes
      = (if reclaimSucceeds cInplaceSpinCount (1 :: 1 :: List.replicate 199 0) then 0
         else 0 + 1) :=
  ⟨by simp only [List.length_cons, List.length_replicate]; omega,
    (inplaceMutex_Unlock_wake_unless_reclaim (1 :: 1 :: List.replicate 199 0) 2 2 0 true none
      ⟨.Unlock, none⟩ (by simp only [List.length_cons, List.length_replicate]; omega)).2.2.1,
    (inplaceMutex_Unlock_wake_unless_reclaim (1 :: 1 :: List.replicate 199 0) 2 2 0 true none
      ⟨.Unlock, none⟩
      (by simp only [List.length_cons, List.length_replicate]; omega)).2.2.2.1⟩

/-- The two ways `Unlock` ends after observing LockedHaveWaiters, evaluated:
left alone it calls `wake()` once; when a fast-path acquirer has set the word
to LockedNoWaiters it returns through its CAS without calling `wake()`. -/
theorem inplaceMutex_Unlock_both_paths :
    reclaimSucceeds cInplaceSpinCount (List.replicate 201 0) = false ∧
    (runCallEnv (2 :: 2 :: List.replicate 201 0) ⟨2, 0⟩ ⟨.uLoad, true, none⟩
      ⟨.Unlock, none⟩) = (⟨0, 1⟩, ⟨.idle, false, some .unit⟩) ∧
    reclaimSucceeds cInplaceSpinCount (1 :: 1 :: List.replicate 199 0) = true ∧
    (runCallEnv (2 :: 2 :: 1 :: 1 :: List.replicate 199 0) ⟨2, 0⟩ ⟨.uLoad, true, none⟩
      ⟨.Unlock, none⟩) = (⟨2, 0⟩, ⟨.idle, false, some .unit⟩) := by
  decide

/-! ## The wait loop of `lockTimeout` -/

/-- C13 (counterexample). In the wait loop, when `wait` reports Interrupted
(or WouldBlock) as its error, `lockTimeout` returns that error at once: the
word is not swapped, the process does not reach the swap of line 117, and the
`Lock` that called it panics with the error. -/
theorem inplaceMutex_lockTimeout_returns_wait_error :
    stepProc ⟨2, 0⟩ ⟨.lWait .Lock, false, none⟩ ⟨.Lock, some .Interrupted⟩
      = (⟨2, 0⟩, ⟨.panicked (.err .Interrupted), false, none⟩) ∧
    stepProc ⟨2, 0⟩ ⟨.lWait .Lock, false, none⟩ ⟨.Lock, some .WouldBlock⟩
      = (⟨2, 0⟩, ⟨.panicked (.err .WouldBlock), false, none⟩) ∧
    (stepProc ⟨2, 0⟩ ⟨.lWait .Lock, false, none⟩ ⟨.Lock, some .Interrupted⟩).2.pc
      ≠ .lSwap .Lock := by
  decide

/-- C13 (amended). In the wait loop of `lockTimeout`, whatever the word holds:
when `wait` returns an error, `lockTimeout` returns it at once with the word
untouched and without swapping, so that `Lock` panics with it and
`LockTimeout` returns false for Timeout and panics with every other error
(Interrupted and WouldBlock included); when `wait` returns nil the loop
goes on to the swap; each swap writes LockedHaveWaiters and returns Ok, the
mutex then being held, exactly when it observed Unlocked, and goes back to
`wait` otherwise. -/
theorem inplaceMutex_lockTimeout_wait_loop (m : Mem) (h : Bool) (l : Option Ret) (op : Op) :
    (∀ e, stepProc m ⟨.lWait .Lock, h, l⟩ ⟨op, some e⟩
      = (m, ⟨.panicked (.err e), h, l⟩)) ∧
    (∀ t e, stepProc m ⟨.lWait (.LockTimeout t), h, l⟩ ⟨op, some e⟩
      = (m, if e = .Timeout then ⟨.idle, h, some (.bool false)⟩
            else ⟨.panicked (.err e), h, l⟩)) ∧
    (∀ api, stepProc m ⟨.lWait api, h, l⟩ ⟨op, none⟩ = (m, ⟨.lSwap api, h, l⟩)) ∧
    (∀ wr, stepProc m ⟨.lSwap .Lock, h, l⟩ ⟨op, wr⟩
      = (⟨cInplaceMutexLockedHaveWaiters, m.wakes⟩,
         if m.word = cInplaceMutexUnlocked then ⟨.idle, true, some .unit⟩
         else ⟨.lWait .Lock, h, l⟩)) ∧
    (∀ t wr, stepProc m ⟨.lSwap (.LockTimeout t), h, l⟩ ⟨op, wr⟩
      = (⟨cInplaceMutexLockedHaveWaiters, m.wakes⟩,
         if m.word = cInplaceMutexUnlocked then ⟨.idle, true, some (.bool true)⟩
         else ⟨.lWait (.LockTimeout t), h, l⟩)) ∧
    (∀ wr, stepProc m ⟨.lSwapFirst .Lock, h, l⟩ ⟨op, wr⟩
      = (⟨cInplaceMutexLockedHaveWaiters, m.wakes⟩,
         if m.word = cInplaceMutexUnlocked then ⟨.idle, true, some .unit⟩
         else ⟨.lWait .Lock, h, l⟩)) ∧
    (∀ t wr, stepProc m ⟨.lSwapFirst (.LockTimeout t), h, l⟩ ⟨op, wr⟩
      = (⟨cInplaceMutexLockedHaveWaiters, m.wakes⟩,
         if m.word = cInplaceMutexUnlocked then ⟨.idle, true, some (.bool true)⟩
         else ⟨.lWait (.LockTimeout t), h, l⟩)) := by
  refine ⟨?_, ?_, ?_, ?_, ?_, ?_, ?_⟩
  · intro e
    simp [stepProc, finishLock, inplaceMutex.Lock]
  · intro t e
    by_cases he : e = .Timeout
    · subst he
      simp [stepProc, finishLock, inplaceMutex.LockTimeout, IsTimeoutErr]
    · simp [stepProc, finishLock, inplaceMutex.LockTimeout, IsTimeoutErr, he]
  · intro api
    simp [stepProc]
  · intro wr
    by_cases hw : m.word = cInplaceMutexUnlocked <;>
      simp [stepProc, SwapUint32, finishLock, inplaceMutex.Lock, hw]
  · intro t wr
    by_cases hw : m.word = cInplaceMutexUnlocked <;>
      simp [stepProc, SwapUint32, finishLock, inplaceMutex.LockTimeout, hw]
  · intro wr
    by_cases hw : m.word = cInplaceMutexUnlocked <;>
      simp [stepProc, SwapUint32, finishLock, inplaceMutex.Lock, hw]
  · intro t wr
    by_cases hw : m.word = cInplaceMutexUnlocked <;>
      simp [stepProc, SwapUint32, finishLock, inplaceMutex.LockTimeout, hw]

/-! ## `createMemoryObject`: the retry loop -/

theorem assign_calls (st : CreateResult) (plat : Platform) (name : String)
    (mode perm : Nat) : (st.assign plat name mode perm).calls = st.calls ++ [mode] := by
  unfold CreateResult.assign
  split <;> rfl

theorem assign_created (st : CreateResult) (plat : Platform) (name : String)
    (mode perm : Nat) : (st.assign plat name mode perm).created = st.created := by
  unfold CreateResult.assign
  split <;> rfl

theorem assign_isExist (st : CreateResult) (plat : Platform) (name : String)
    (mode perm : Nat) :
    IsExist (st.assign plat name mode perm).err = true ↔
      plat st.calls.length name mode perm = .fail .AlreadyExists := by
  unfold CreateResult.assign
  cases h : plat st.calls.length name mode perm with
  | ok o => simp [IsExist]
  | fail e => cases e <;> simp [IsExist]

theorem assign_isNotExist (st : CreateResult) (plat : Platform) (name : String)
    (mode perm : Nat) :
    IsNotExist (st.assign plat name mode perm).err = true ↔
      plat st.calls.length name mode perm = .fail .NotFound := by
  unfold CreateResult.assign
  cases h : plat st.calls.length name mode perm with
  | ok o => simp [IsNotExist]
  | fail e => cases e <;> simp [IsNotExist]

theorem assign_fail (st : CreateResult) (plat : Platform) (name : String)
    (mode perm : Nat) (e : Err) (h : plat st.calls.length name mode perm = .fail e) :
    st.assign plat name mode perm =
      { obj := none, created := st.created, err := some e, calls := st.calls ++ [mode] } := by
  simp [CreateResult.assign, h]

theorem roundModes_succ (fl : OpenFlags) (mode n : Nat) :
    roundModes fl mode (n + 1) =
      (mode ||| fl.O_CREATE_ONLY) :: (mode ||| fl.O_OPEN_ONLY) :: roundModes fl mode n := by
  simp [roundModes, List.replicate_succ]

theorem roundModes_length (fl : OpenFlags) (mode n : Nat) :
    (roundModes fl mode n).length = 2 * n := by
  induction n with
  | zero => simp [roundModes]
  | succ n ih => rw [roundModes_succ]; simp [ih]; omega

/-- The loop with `n` iterations left makes between 1 and `2 * n` calls, in
the order of the rounds, and goes on only on AlreadyExists, then NotFound. -/
theorem createMemoryObjectLoop_spec (fl : OpenFlags) (plat : Platform) (name : String)
    (mode perm : Nat) (n : Nat) : ∀ st : CreateResult,
    ∃ j, j ≤ 2 * n ∧ (0 < n → 1 ≤ j) ∧
      (createMemoryObjectLoop fl plat name mode perm n st).calls =
        st.calls ++ (roundModes fl mode n).take j ∧
      (∀ k, 2 * k + 1 < j →
        plat (st.calls.length + 2 * k) name (mode ||| fl.O_CREATE_ONLY) perm
          = .fail .AlreadyExists) ∧
      (∀ k, 2 * k + 2 < j →
        plat (st.calls.length + (2 * k + 1)) name (mode ||| fl.O_OPEN_ONLY) perm
          = .fail .NotFound) := by
  induction n with
  | zero =>
    intro st
    exact ⟨0, by omega, by omega, by simp [createMemoryObjectLoop],
      fun k h => absurd h (by omega), fun k h => absurd h (by omega)⟩
  | succ n ih =>
    intro st
    by_cases h1 : IsExist (st.assign plat name (mode ||| fl.O_CREATE_ONLY) perm).err = true
    · have p1 := (assign_isExist st plat name _ perm).1 h1
      by_cases h2 : IsNotExist ((st.assign plat name (mode ||| fl.O_CREATE_ONLY) perm).assign
          plat name (mode ||| fl.O_OPEN_ONLY) perm).err = true
      · have p2 := (assign_isNotExist _ plat name _ perm).1 h2
        rw [assign_calls] at p2
        obtain ⟨j, hj, _, hc, hA, hB⟩ :=
          ih ((st.assign plat name (mode ||| fl.O_CREATE_ONLY) perm).assign
            plat name (mode ||| fl.O_OPEN_ONLY) perm)
        rw [assign_calls, assign_calls] at hc hA hB
        refine ⟨j + 2, by omega, by omega, ?_, ?_, ?_⟩
        · simp only [createMemoryObjectLoop, h1, h2, Bool.not_true, Bool.false_eq_true,
            if_false]
          rw [hc, roundModes_succ]
          simp
        · intro k hk
          cases k with
          | zero => simpa using p1
          | succ k =>
            have := hA k (by omega)
            simp only [List.length_append, List.length_singleton] at this
            rw [← this]
            congr 1
            omega
        · intro k hk
          cases k with
          | zero => simpa using p2
          | succ k =>
            have := hB k (by omega)
            simp only [List.length_append, List.length_singleton] at this
            rw [← this]
            congr 1
            omega
      · refine ⟨2, by omega, by omega, ?_, ?_, fun k h => absurd h (by omega)⟩
        · simp only [createMemoryObjectLoop, h1, h2, Bool.not_true, Bool.false_eq_true,
            if_false, Bool.not_eq_true, Bool.not_false, if_true]
          rw [assign_calls, assign_calls, roundModes_succ]
          simp
        · intro k hk
          have hk0 : k = 0 := by omega
          subst hk0
          simpa using p1
    · refine ⟨1, by omega, by omega, ?_, fun k h => absurd h (by omega),
        fun k h => absurd h (by omega)⟩
      simp only [createMemoryObjectLoop, h1, Bool.not_eq_true, Bool.not_false, if_true]
      rw [assign_calls, roundModes_succ]
      simp

/-- When every round fails (AlreadyExists, then NotFound) the loop ends with
the last NotFound, no object and `created` unchanged. -/
theorem createMemoryObjectLoop_all_fail (fl : OpenFlags) (plat : Platform) (name : String)
    (mode perm : Nat) (n : Nat) : ∀ st : CreateResult,
    (∀ k, k < n + 1 →
      plat (st.calls.length + 2 * k) name (mode ||| fl.O_CREATE_ONLY) perm
        = .fail .AlreadyExists ∧
      plat (st.calls.length + (2 * k + 1)) name (mode ||| fl.O_OPEN_ONLY) perm
        = .fail .NotFound) →
    createMemoryObjectLoop fl plat name mode perm (n + 1) st =
      { obj := none, created := st.created, err := some .NotFound,
        calls := st.calls ++ roundModes fl mode (n + 1) } := by
  induction n with
  | zero =>
    intro st h
    have p1 := (h 0 (by omega)).1
    have p2 := (h 0 (by omega)).2
    simp only [Nat.mul_zero, Nat.add_zero, Nat.zero_add] at p1 p2
    have e1 := assign_fail st plat name _ perm _ p1
    have e2 := assign_fail
      { obj := none, created := st.created, err := some .AlreadyExists,
        calls := st.calls ++ [mode ||| fl.O_CREATE_ONLY] } plat name
      (mode ||| fl.O_OPEN_ONLY) perm .NotFound (by simpa using p2)
    simp [createMemoryObjectLoop, e1, e2, IsExist, IsNotExist, roundModes_succ, roundModes]
  | succ n ih =>
    intro st h
    have p1 := (h 0 (by omega)).1
    have p2 := (h 0 (by omega)).2
    simp only [Nat.mul_zero, Nat.add_zero, Nat.zero_add] at p1 p2
    have e1 := assign_fail st plat name _ perm _ p1
    have e2 := assign_fail
      { obj := none, created := st.created, err := some .AlreadyExists,
        calls := st.calls ++ [mode ||| fl.O_CREATE_ONLY] } plat name
      (mode ||| fl.O_OPEN_ONLY) perm .NotFound (by simpa using p2)
    have hrec := ih
      { obj := none, created := st.created, err := some .NotFound,
        calls := st.calls ++ [mode ||| fl.O_CREATE_ONLY] ++ [mode ||| fl.O_OPEN_ONLY] }
      (by
        intro k hk
        have := h (k + 1) (by omega)
        simp only [List.length_append, List.length_singleton]
        constructor
        · rw [← this.1]; congr 1; omega
        · rw [← this.2]; congr 1; omega)
    rw [createMemoryObjectLoop]
    simp only [e1, e2, IsExist, IsNotExist, Bool.not_true, Bool.false_eq_true, if_false]
    rw [hrec, roundModes_succ fl mode (n + 1)]
    simp

/-- C14. In `OpenOrCreate` mode `createMemoryObject` returns, for every
platform, after at most 16 rounds (32 calls): each round attempts
`CreateOnly`, then `OpenOnly` only if that failed with AlreadyExists, and
another round follows only if the open failed with NotFound; if all 16 rounds
fail this way the result is the NotFound of the last open, `created = false`
and no object. -/
theorem createMemoryObject_OpenOrCreate_rounds (fl : OpenFlags) (plat : Platform)
    (name : String) (mode perm : Nat)
    (h1 : mode &&& (fl.O_OPEN_ONLY ||| fl.O_CREATE_ONLY) = 0)
    (h2 : mode &&& fl.O_OPEN_OR_CREATE ≠ 0) :
    OpenOrCreateRounds fl plat name mode perm := by
  have hdef : createMemoryObject fl plat name mode perm =
      createMemoryObjectLoop fl plat name (andNot mode fl.O_OPEN_OR_CREATE) perm 16
        { obj := none, created := false, err := none, calls := [] } := by
    simp [createMemoryObject, h1, h2]
  obtain ⟨j, hj, hj1, hc, hA, hB⟩ :=
    createMemoryObjectLoop_spec fl plat name (andNot mode fl.O_OPEN_OR_CREATE) perm 16
      { obj := none, created := false, err := none, calls := [] }
  simp only [List.nil_append, List.length_nil, Nat.zero_add] at hc hA hB
  have hlen : (createMemoryObject fl plat name mode perm).calls.length = j := by
    rw [hdef, hc, List.length_take, roundModes_length]
    omega
  unfold OpenOrCreateRounds
  rw [hlen]
  refine ⟨by omega, hj1 (by omega), by rw [hdef]; exact hc, hA, hB, ?_⟩
  intro hall
  rw [hdef]
  have := createMemoryObjectLoop_all_fail fl plat name (andNot mode fl.O_OPEN_OR_CREATE)
    perm 15 { obj := none, created := false, err := none, calls := [] }
    (by simpa using hall)
  simpa using this

theorem createMemoryObject_OpenOrCreate_rounds_witness :
    (1 &&& (sampleFlags.O_OPEN_ONLY ||| sampleFlags.O_CREATE_ONLY) = 0) ∧
    (1 &&& sampleFlags.O_OPEN_OR_CREATE ≠ 0) ∧
    OpenOrCreateRounds sampleFlags racingPlatform "m" 1 438 :=
  ⟨by decide, by decide,
    createMemoryObject_OpenOrCreate_rounds sampleFlags racingPlatform "m" 1 438
      (by decide) (by decide)⟩

/-! ## `newSpinMutex`: rollback -/

/-- C15 (counterexample). When the initial `alloc` fails after the object was
created, truncated and mapped, `newSpinMutex` closes the object handle before
it unmaps the region: the calls are `obj.Close()`, `region.Close()`,
`obj.Destroy()`, not unmap, close, unlink. -/
theorem newSpinMutex_closes_before_unmap :
    newSpinMutex allocFailingPlatform "m" sampleFlags.O_CREATE_ONLY 438 = .ret
      { mutex := none, err := some .InvalidArgument,
        log := [.Truncate ⟨7⟩ 4, .NewMemoryRegion ⟨7⟩, .alloc ⟨9⟩,
          .ObjClose ⟨7⟩, .RegionClose ⟨9⟩, .ObjDestroy ⟨7⟩] } := by
  decide

/-- C15 (amended). For every failure of `Truncate`, `NewMemoryRegion` or the
initial `alloc` after `createMemoryObject` succeeded, `newSpinMutex` returns
the error and no mutex, and undoes its side effects in this order: it closes
the object handle, then unmaps the region if one was mapped, then unlinks the
name (`obj.Destroy()`) if and only if `createMemoryObject` reported
`created`. -/
theorem newSpinMutex_rollback (P : SpinPlatform) (name : String) (mode perm : Nat)
    (obj : MemoryObject)
    (herr : (createMemoryObject P.fl P.newMemoryObject (spinName name)
      (mode ||| P.O_READWRITE) perm).err = none)
    (hobj : (createMemoryObject P.fl P.newMemoryObject (spinName name)
      (mode ||| P.O_READWRITE) perm).obj = some obj) :
    NewSpinMutexRollback P name mode perm obj
      (createMemoryObject P.fl P.newMemoryObject (spinName name)
        (mode ||| P.O_READWRITE) perm).created := by
  refine ⟨?_, ?_, ?_⟩
  · intro e ht
    simp only [newSpinMutex, herr, hobj, ht, newSpinMutexDeferred]
    simp
  · intro ht e hm
    simp only [newSpinMutex, herr, hobj, ht, hm, newSpinMutexDeferred]
    simp
  · intro ht rg e hm hc ha
    simp only [newSpinMutex, herr, hobj, ht, hm, hc, ha, newSpinMutexDeferred]
    simp

theorem newSpinMutex_rollback_witness :
    (createMemoryObject allocFailingPlatform.fl allocFailingPlatform.newMemoryObject
      (spinName "m") (sampleFlags.O_CREATE_ONLY ||| allocFailingPlatform.O_READWRITE)
      438).err = none ∧
    (createMemoryObject allocFailingPlatform.fl allocFailingPlatform.newMemoryObject
      (spinName "m") (sampleFlags.O_CREATE_ONLY ||| allocFailingPlatform.O_READWRITE)
      438).obj = some ⟨7⟩ ∧
    NewSpinMutexRollback allocFailingPlatform "m" sampleFlags.O_CREATE_ONLY 438 ⟨7⟩
      (createMemoryObject allocFailingPlatform.fl allocFailingPlatform.newMemoryObject
        (spinName "m") (sampleFlags.O_CREATE_ONLY ||| allocFailingPlatform.O_READWRITE)
        438).created :=
  ⟨by decide, by decide,
    newSpinMutex_rollback allocFailingPlatform "m" sampleFlags.O_CREATE_ONLY 438 ⟨7⟩
      (by decide) (by decide)⟩

set_option maxRecDepth 100000 in
/-- What `wildRun` does, evaluated: after the time-out of process 3 the word
is LockedHaveWaiters and its `LockTimeout` has returned false; at the end the
word is Unlocked although process 0 still holds, and process 2 has panicked. -/
theorem wildRun_trace :
    ((run Sys.initial (wildRun.take 105)).procs 3).pc = .lWait (.LockTimeout 5) ∧
    (run Sys.initial (wildRun.take 106)).mem.word = cInplaceMutexLockedHaveWaiters ∧
    (run Sys.initial (wildRun.take 106)).procs 3 = ⟨.idle, false, some (.bool false)⟩ ∧
    (run Sys.initial wildRun).mem.word = cInplaceMutexUnlocked ∧
    ((run Sys.initial wildRun).procs 2).pc = .panicked (.str "unlock of unlocked mutex") ∧
    ((run Sys.initial wildRun).procs 0).holds = true := by
  decide

end GoIpc
